import Mathlib

/-!
Verification of the CARN-pytorch module library (`src/model/ops.py`) and the
`Net` architecture (`src/model/resnet_a.py`).

Tensors are modelled as 4-dimensional (batch N, channel C, height H, width W)
arrays of exact rationals.  Every tensor operation that PyTorch rejects with a
runtime error on mismatched shapes (convolution with the wrong channel count,
`torch.cat` on unequal spatial sizes, elementwise `+` on unequal shapes,
`PixelShuffle` on a channel count not divisible by `r*r`) is modelled as a
function into `Option Tensor` returning `none` in exactly those cases.
-/

namespace CARN

/-- A 4-d tensor of shape (N, C, H, W) with rational entries.  `data` is a
total function; only indices below the bounds are meaningful, and tensor
equality is stated via `Tensor.EqOn` which compares the in-range entries. -/
structure Tensor where
  N : ℕ
  C : ℕ
  H : ℕ
  W : ℕ
  data : ℕ → ℕ → ℕ → ℕ → ℚ

/-- Zero-padded lookup: the value of the tensor at integer spatial
coordinates, 0 outside the spatial bounds (PyTorch zero padding). -/
def Tensor.pix (t : Tensor) (n c : ℕ) (i j : ℤ) : ℚ :=
  if 0 ≤ i ∧ i < (t.H : ℤ) ∧ 0 ≤ j ∧ j < (t.W : ℤ) then t.data n c i.toNat j.toNat else 0

/-- Two tensors have the same shape. -/
def Tensor.SameShape (a b : Tensor) : Prop :=
  a.N = b.N ∧ a.C = b.C ∧ a.H = b.H ∧ a.W = b.W

instance (a b : Tensor) : Decidable (a.SameShape b) := by
  unfold Tensor.SameShape; infer_instance

/-- Tensor equality: same shape and equal entries at every in-range index. -/
def Tensor.EqOn (a b : Tensor) : Prop :=
  a.SameShape b ∧
    ∀ n < a.N, ∀ c < a.C, ∀ i < a.H, ∀ j < a.W, a.data n c i j = b.data n c i j

/-- Apply a function elementwise (`nn.ReLU` and friends). -/
def Tensor.map (t : Tensor) (f : ℚ → ℚ) : Tensor :=
  { t with data := fun n c i j => f (t.data n c i j) }

/-- `nn.ReLU()` acts elementwise as `max 0`. -/
def relu (v : ℚ) : ℚ := max 0 v

/-- A 2-d convolution layer: `nn.Conv2d(inC, outC, k, stride, p, dilation=d)`.
A layer declared with `bias=False` is modelled by the zero bias function. -/
structure Conv2d where
  inC : ℕ
  outC : ℕ
  k : ℕ
  stride : ℕ
  p : ℕ
  d : ℕ
  weight : ℕ → ℕ → ℕ → ℕ → ℚ
  bias : ℕ → ℚ

/-- PyTorch output size of a convolution along one spatial dimension:
`floor((size + 2*p - d*(k-1) - 1) / stride) + 1`. -/
def convOutDim (size k stride p d : ℕ) : ℤ :=
  ((size : ℤ) + 2 * (p : ℤ) - (d : ℤ) * ((k : ℤ) - 1) - 1) / (stride : ℤ) + 1

/-- The output tensor of a convolution (cross-correlation with zero padding,
as computed by `nn.Conv2d`): entry (n, co, i, j) is the bias plus the sum over
input channels and kernel positions of weight times the padded input at
`(i*stride + u*d - p, j*stride + v*d - p)`. -/
def Conv2d.outT (c : Conv2d) (x : Tensor) : Tensor :=
  { N := x.N, C := c.outC,
    H := (convOutDim x.H c.k c.stride c.p c.d).toNat,
    W := (convOutDim x.W c.k c.stride c.p c.d).toNat,
    data := fun n co i j =>
      c.bias co +
        ∑ ci ∈ Finset.range c.inC, ∑ u ∈ Finset.range c.k, ∑ v ∈ Finset.range c.k,
          c.weight co ci u v *
            x.pix n ci ((i : ℤ) * c.stride + (u : ℤ) * c.d - c.p)
                      ((j : ℤ) * c.stride + (v : ℤ) * c.d - c.p) }

/-- Run a convolution layer.  Fails (PyTorch runtime error) when the input
channel count differs from the layer's `inC` or the output would be empty. -/
def Conv2d.apply (c : Conv2d) (x : Tensor) : Option Tensor :=
  if x.C = c.inC ∧ 1 ≤ convOutDim x.H c.k c.stride c.p c.d ∧
      1 ≤ convOutDim x.W c.k c.stride c.p c.d then
    some (c.outT x)
  else none

/-- `torch.cat((a, b), dim=1)`: concatenate along the channel dimension;
fails unless the other dimensions agree. -/
def tcat (a b : Tensor) : Option Tensor :=
  if a.N = b.N ∧ a.H = b.H ∧ a.W = b.W then
    some { N := a.N, C := a.C + b.C, H := a.H, W := a.W,
           data := fun n c i j =>
             if c < a.C then a.data n c i j else b.data n (c - a.C) i j }
  else none

/-- Elementwise `+` of two tensors of identical shape (the only form of
tensor addition this repository performs on matching channel counts). -/
def tadd (a b : Tensor) : Option Tensor :=
  if a.SameShape b then
    some { a with data := fun n c i j => a.data n c i j + b.data n c i j }
  else none

/-- `nn.PixelShuffle(r)`: (N, C*r*r, H, W) to (N, C, r*H, r*W); fails unless
`r*r` divides the channel count. -/
def pixelShuffle (r : ℕ) (x : Tensor) : Option Tensor :=
  if r * r ∣ x.C then
    some { N := x.N, C := x.C / (r * r), H := x.H * r, W := x.W * r,
           data := fun n c i j =>
             x.data n (c * (r * r) + r * (i % r) + (j % r)) (i / r) (j / r) }
  else none

/-- `nn.Conv2d(inC, outC, 3, 1, pad, dilation=d, bias=False)` with
`pad = dilation`, as declared in `BasicBlock` and `ResidualBlock`. -/
def conv3x3 (inC outC d : ℕ) (w : ℕ → ℕ → ℕ → ℕ → ℚ) : Conv2d :=
  { inC := inC, outC := outC, k := 3, stride := 1, p := d, d := d,
    weight := w, bias := fun _ => 0 }

/-- `nn.Conv2d(inC, outC, 1, 1, 0, bias=False)`: the 1x1 projections used by
shortcut and exit layers. -/
def conv1x1 (inC outC : ℕ) (w : ℕ → ℕ → ℕ → ℕ → ℚ) : Conv2d :=
  { inC := inC, outC := outC, k := 1, stride := 1, p := 0, d := 1,
    weight := w, bias := fun _ => 0 }

/-- `nn.Conv2d(inC, outC, 3, 1, 1)` with default dilation 1 and a bias, as
used by `Net.entry`, `Net.exit` and `UpsampleBlock`. -/
def conv3x3b (inC outC : ℕ) (w : ℕ → ℕ → ℕ → ℕ → ℚ) (b : ℕ → ℚ) : Conv2d :=
  { inC := inC, outC := outC, k := 3, stride := 1, p := 1, d := 1,
    weight := w, bias := b }

/-- `ops.MeanShift`: a frozen 1x1 convolution whose weight is the 3x3
identity matrix (`torch.eye(3).view(3,3,1,1)`) and whose bias is
`sign * mean_rgb` with `sign = -1 if sub else 1`. -/
structure MeanShift where
  shifter : Conv2d

/-- `MeanShift.__init__(mean_rgb, sub)`. -/
def MeanShift.init (mean_rgb : ℕ → ℚ) (sub : Bool) : MeanShift :=
  let sign : ℚ := if sub then -1 else 1
  { shifter :=
      { inC := 3, outC := 3, k := 1, stride := 1, p := 0, d := 1,
        weight := fun o i _ _ => if o = i then 1 else 0,
        bias := fun c => mean_rgb c * sign } }

/-- `MeanShift.forward(x) = self.shifter(x)`. -/
def MeanShift.forward (m : MeanShift) (x : Tensor) : Option Tensor :=
  m.shifter.apply x

/-- `ops.BasicBlock`: `body = Sequential(Conv2d(in, out, 3, 1, pad,
dilation, bias=False), act)` with `pad = dilation`. -/
structure BasicBlock where
  conv : Conv2d
  act : ℚ → ℚ

/-- `BasicBlock.__init__(in_channels, out_channels, dilation, act)`. -/
def BasicBlock.init (inC outC d : ℕ) (act : ℚ → ℚ) (w : ℕ → ℕ → ℕ → ℕ → ℚ) :
    BasicBlock :=
  { conv := conv3x3 inC outC d w, act := act }

/-- `BasicBlock.forward(x) = self.body(x)` (convolution then activation). -/
def BasicBlock.forward (b : BasicBlock) (x : Tensor) : Option Tensor :=
  (b.conv.apply x).map (fun t => t.map b.act)

/-- `ops.ResidualBlock`: `body = Sequential(conv3x3, act, conv3x3)`; the
attribute `identity` (a 1x1 projection) is created only when
`in_channels != out_channels`, modelled by the `Option`. -/
structure ResidualBlock where
  conv1 : Conv2d
  conv2 : Conv2d
  identity : Option Conv2d
  act : ℚ → ℚ

/-- `ResidualBlock.__init__(in_channels, out_channels, dilation, act)`:
`self.identity` is set exactly when `not in_channels == out_channels`. -/
def ResidualBlock.init (inC outC d : ℕ) (act : ℚ → ℚ)
    (w1 w2 wid : ℕ → ℕ → ℕ → ℕ → ℚ) : ResidualBlock :=
  { conv1 := conv3x3 inC outC d w1,
    conv2 := conv3x3 outC outC d w2,
    identity := if inC = outC then none else some (conv1x1 inC outC wid),
    act := act }

/-- `ResidualBlock`'s `self.body(x)`: conv, activation, conv. -/
def ResidualBlock.body (r : ResidualBlock) (x : Tensor) : Option Tensor :=
  (r.conv1.apply x).bind fun o1 => r.conv2.apply (o1.map r.act)

/-- `ResidualBlock.forward(x)`: `out = body(x); if identity: x =
identity(x); return act(out + x)` (an `nn.Conv2d` instance is truthy, so the
`getattr` test succeeds exactly when the attribute exists). -/
def ResidualBlock.forward (r : ResidualBlock) (x : Tensor) : Option Tensor :=
  (r.body x).bind fun o =>
    (match r.identity with
      | none => some x
      | some c => c.apply x).bind fun xs =>
      (tadd o xs).map fun s => Tensor.map s r.act

/-- A branch sub-module of a multi-branch dilated block: `MDBlock` stores
`BasicBlock` instances, `MDRBlockA` stores `ResidualBlock` instances.  The
sum type models the Python dynamic class of the stored module. -/
inductive Branch where
  | basic (b : BasicBlock)
  | residual (r : ResidualBlock)

/-- Python method dispatch on the stored branch module. -/
def Branch.forward : Branch → Tensor → Option Tensor
  | .basic b, x => b.forward x
  | .residual r, x => r.forward x

/-- Whether the branch module is a `ResidualBlock` instance. -/
def Branch.isResidual : Branch → Bool
  | .basic _ => false
  | .residual _ => true

/-- Output channel count of the branch's final convolution. -/
def Branch.outC : Branch → ℕ
  | .basic b => b.conv.outC
  | .residual r => r.conv2.outC

/-- `ops.MDBlock`: two `BasicBlock` branches with dilations `dilation[0]`,
`dilation[1]`, each with `int(out_channels/2)` output channels, and
`exit = Sequential(Conv2d(out, out, 1, 1, 0, bias=False), act)`. -/
structure MDBlock where
  branch0 : Branch
  branch1 : Branch
  exit : Conv2d
  act : ℚ → ℚ

/-- `MDBlock.__init__(in_channels, out_channels, dilation, act)`. -/
def MDBlock.init (inC outC d0 d1 : ℕ) (act : ℚ → ℚ)
    (w0 w1 we : ℕ → ℕ → ℕ → ℕ → ℚ) : MDBlock :=
  { branch0 := .basic (BasicBlock.init inC (outC / 2) d0 act w0),
    branch1 := .basic (BasicBlock.init inC (outC / 2) d1 act w1),
    exit := conv1x1 outC outC we,
    act := act }

/-- `MDBlock.forward(x)`: concatenate the branches on the channel dimension
and run the exit convolution plus activation. -/
def MDBlock.forward (m : MDBlock) (x : Tensor) : Option Tensor :=
  (m.branch0.forward x).bind fun b0 =>
    (m.branch1.forward x).bind fun b1 =>
      (tcat b0 b1).bind fun c =>
        (m.exit.apply c).map fun e => e.map m.act

/-- `ops.MDRBlockA`: like `MDBlock` but with `ResidualBlock` branches and a
final residual addition `+ x` after the exit layer. -/
structure MDRBlockA where
  branch0 : Branch
  branch1 : Branch
  exit : Conv2d
  act : ℚ → ℚ

/-- `MDRBlockA.__init__(in_channels, out_channels, dilation, act)`: each
branch is `ResidualBlock(in_channels, int(out_channels/2), dilation[i], act)`. -/
def MDRBlockA.init (inC outC d0 d1 : ℕ) (act : ℚ → ℚ)
    (w01 w02 w0id w11 w12 w1id we : ℕ → ℕ → ℕ → ℕ → ℚ) : MDRBlockA :=
  { branch0 := .residual (ResidualBlock.init inC (outC / 2) d0 act w01 w02 w0id),
    branch1 := .residual (ResidualBlock.init inC (outC / 2) d1 act w11 w12 w1id),
    exit := conv1x1 outC outC we,
    act := act }

/-- `MDRBlockA.forward(x)`: `out = exit(cat(branch0(x), branch1(x))) + x`. -/
def MDRBlockA.forward (m : MDRBlockA) (x : Tensor) : Option Tensor :=
  (m.branch0.forward x).bind fun b0 =>
    (m.branch1.forward x).bind fun b1 =>
      (tcat b0 b1).bind fun c =>
        (m.exit.apply c).bind fun e => tadd (e.map m.act) x

/-- `ops.MDRBlockB`: each branch is `Sequential(Conv2d(in, reduce, 1, 1, 0,
bias=False), act, ResidualBlock(reduce, reduce, dilation[i], act))`; the exit
is a 1x1 convolution from `reduce*2` to `out_channels` plus activation. -/
structure MDRBlockB where
  reduce1 : Conv2d
  rb1 : ResidualBlock
  reduce2 : Conv2d
  rb2 : ResidualBlock
  exit : Conv2d
  act : ℚ → ℚ

/-- `MDRBlockB.__init__(in_channels, reduce_channels, out_channels,
dilation, act)`. -/
def MDRBlockB.init (inC redC outC d0 d1 : ℕ) (act : ℚ → ℚ)
    (wr1 w11 w12 w1id wr2 w21 w22 w2id we : ℕ → ℕ → ℕ → ℕ → ℚ) : MDRBlockB :=
  { reduce1 := conv1x1 inC redC wr1,
    rb1 := ResidualBlock.init redC redC d0 act w11 w12 w1id,
    reduce2 := conv1x1 inC redC wr2,
    rb2 := ResidualBlock.init redC redC d1 act w21 w22 w2id,
    exit := conv1x1 (redC * 2) outC we,
    act := act }

/-- `MDRBlockB.forward(x)`: `out = exit(cat(branch1(x), branch2(x))) + x`,
where each branch is the reducing 1x1 convolution, the activation, then the
residual block. -/
def MDRBlockB.forward (m : MDRBlockB) (x : Tensor) : Option Tensor :=
  (m.reduce1.apply x).bind fun r1 =>
    (m.rb1.forward (r1.map m.act)).bind fun b1 =>
      (m.reduce2.apply x).bind fun r2 =>
        (m.rb2.forward (r2.map m.act)).bind fun b2 =>
          (tcat b1 b2).bind fun c =>
            (m.exit.apply c).bind fun e => tadd (e.map m.act) x

/-- One element of an `nn.Sequential` module list in `UpsampleBlock`. -/
inductive Layer where
  | conv (c : Conv2d)
  | act (f : ℚ → ℚ)
  | shuffle (r : ℕ)

/-- Run a single sequential element. -/
def Layer.apply : Layer → Tensor → Option Tensor
  | .conv c, x => c.apply x
  | .act f, x => some (x.map f)
  | .shuffle r, x => pixelShuffle r x

/-- `nn.Sequential(*modules)`: run the layers in order; the empty list is the
identity module. -/
def runLayers : List Layer → Tensor → Option Tensor
  | [], x => some x
  | l :: ls, x => (l.apply x).bind (runLayers ls)

/-- `int(math.log(scale, 2))`.  For the scales 2, 4 and 8 that reach this
expression, Python's float computation returns exactly 1.0, 2.0 and 3.0, so
the truncation coincides with the base-2 integer logarithm. -/
def pyIntLog2 (scale : ℕ) : ℕ := Nat.log2 scale

/-- `ops.UpsampleBlock`: weights of its convolutions, one per stage; each
stage's convolution is `nn.Conv2d(n, 4*n, 3, 1, 1)` (or `n` to `9*n` for
scale 3) and carries a default bias. -/
structure UpsampleBlock where
  body : List Layer

/-- `UpsampleBlock.__init__(n_channels, scale, act=False)`: the module list
is built only for scale 2, 4, 8 (one conv + `PixelShuffle(2)` per stage,
`int(math.log(scale, 2))` stages) or scale 3 (one conv + `PixelShuffle(3)`);
for any other scale it stays empty.  `act` defaults to `False`, appending an
activation after each stage only when truthy. -/
def UpsampleBlock.init (n scale : ℕ) (act : Option (ℚ → ℚ))
    (ws : ℕ → (ℕ → ℕ → ℕ → ℕ → ℚ) × (ℕ → ℚ)) : UpsampleBlock :=
  { body :=
      if scale = 2 ∨ scale = 4 ∨ scale = 8 then
        (List.range (pyIntLog2 scale)).flatMap (fun i =>
          [Layer.conv (conv3x3b n (4 * n) (ws i).1 (ws i).2), Layer.shuffle 2] ++
            (match act with | some f => [Layer.act f] | none => []))
      else if scale = 3 then
        [Layer.conv (conv3x3b n (9 * n) (ws 0).1 (ws 0).2), Layer.shuffle 3] ++
          (match act with | some f => [Layer.act f] | none => [])
      else [] }

/-- `UpsampleBlock.forward(x) = self.body(x)`. -/
def UpsampleBlock.forward (u : UpsampleBlock) (x : Tensor) : Option Tensor :=
  runLayers u.body x

/-- `nn.Sequential` of `ResidualBlock` modules (`Net.body`): run them in
order. -/
def runBody : List ResidualBlock → Tensor → Option Tensor
  | [], x => some x
  | r :: rs, x => (r.forward x).bind (runBody rs)

/-- `resnet_a.Net`: mean shift layers with the fixed RGB mean, an entry
3x3 convolution 3 to 64, nine `ResidualBlock(64, 64)` modules, an
`UpsampleBlock(64, scale)`, and an exit 3x3 convolution 64 to 3. -/
structure Net where
  sub_mean : MeanShift
  add_mean : MeanShift
  entry : Conv2d
  body : List ResidualBlock
  upsample : UpsampleBlock
  exit : Conv2d

/-- The RGB mean `(0.4488, 0.4371, 0.4040)` hard-coded in `Net.__init__`,
read as exact rationals. -/
def netMean : ℕ → ℚ
  | 0 => 4488 / 10000
  | 1 => 4371 / 10000
  | _ => 4040 / 10000

/-- `Net.__init__`: the modules it constructs, with their weights abstracted.
`rw1 rw2 rwid i` are the convolution weights of the i-th of the nine
`ResidualBlock(64, 64)` modules (dilation and activation left at their
defaults 1 and ReLU).  Note that the actual Python constructor call
`ops.UpsampleBlock(64, scale=scale, multi_scale=multi_scale,
reduce=reduce_upsample)` raises a `TypeError` (see `upsampleInitSig` below);
this definition models the modules the line intends to assemble. -/
def Net.init (scale : ℕ) (ew : ℕ → ℕ → ℕ → ℕ → ℚ) (eb : ℕ → ℚ)
    (rw1 rw2 rwid : ℕ → ℕ → ℕ → ℕ → ℕ → ℚ)
    (uws : ℕ → (ℕ → ℕ → ℕ → ℕ → ℚ) × (ℕ → ℚ))
    (xw : ℕ → ℕ → ℕ → ℕ → ℚ) (xb : ℕ → ℚ) : Net :=
  { sub_mean := MeanShift.init netMean true,
    add_mean := MeanShift.init netMean false,
    entry := conv3x3b 3 64 ew eb,
    body := (List.range 9).map (fun i =>
      ResidualBlock.init 64 64 1 relu (rw1 i) (rw2 i) (rwid i)),
    upsample := UpsampleBlock.init 64 scale none uws,
    exit := conv3x3b 64 3 xw xb }

/-- `Net.forward(x, scale)` as the data flow written in lines 31 to 38 of
`resnet_a.py`: sub_mean, entry, body, upsample, exit, add_mean, in order.
In Python the call `self.upsample(out, scale=scale)` additionally raises a
`TypeError` because `ops.UpsampleBlock.forward` accepts no `scale` keyword
(see `upsampleForwardSig` below); this definition models the pipeline the
method spells out. -/
def Net.forwardPipeline (net : Net) (x : Tensor) : Option Tensor :=
  (net.sub_mean.forward x).bind fun x1 =>
    (net.entry.apply x1).bind fun x2 =>
      (runBody net.body x2).bind fun o1 =>
        (net.upsample.forward o1).bind fun o2 =>
          (net.exit.apply o2).bind fun o3 => net.add_mean.forward o3

/-- Signature of a plain Python function or method (positional-or-keyword
parameters after `self`, with the count of trailing defaulted parameters). -/
structure PySig where
  params : List String
  defaults : ℕ

/-- Whether a call with `npos` positional arguments and the keyword argument
names `kwargs` binds against `sig` without raising a `TypeError`: no more
positional arguments than parameters, every keyword names a parameter, no
keyword re-binds a positionally filled parameter, no duplicate keywords, and
every non-defaulted parameter left unfilled positionally gets a keyword. -/
def callBinds (sig : PySig) (npos : ℕ) (kwargs : List String) : Bool :=
  decide (npos ≤ sig.params.length) &&
  kwargs.all (fun k => sig.params.contains k) &&
  kwargs.all (fun k => !(sig.params.take npos).contains k) &&
  decide kwargs.Nodup &&
  ((sig.params.drop npos).take (sig.params.length - sig.defaults - npos)).all
    (fun p => kwargs.contains p)

/-- `ops.UpsampleBlock.__init__(self, n_channels, scale, act=False)`. -/
def upsampleInitSig : PySig := { params := ["n_channels", "scale", "act"], defaults := 1 }

/-- `ops.UpsampleBlock.forward(self, x)`. -/
def upsampleForwardSig : PySig := { params := ["x"], defaults := 0 }

/-- The keyword arguments `Net.__init__` passes in
`ops.UpsampleBlock(64, scale=scale, multi_scale=multi_scale,
reduce=reduce_upsample)` (one positional argument, three keywords). -/
def netUpsampleInitKwargs : List String := ["scale", "multi_scale", "reduce"]

/-- The keyword arguments `Net.forward` passes in
`self.upsample(out, scale=scale)` (one positional argument, one keyword). -/
def netUpsampleCallKwargs : List String := ["scale"]

/-- The all-zero convolution weight, used to instantiate blocks at concrete
parameter values. -/
def zeroW : ℕ → ℕ → ℕ → ℕ → ℚ := fun _ _ _ _ => 0

/-- The all-zero bias. -/
def zeroB : ℕ → ℚ := fun _ => 0

/-- A concrete all-ones 1x1 image with `c` channels and batch size 1. -/
def onesT (c : ℕ) : Tensor := { N := 1, C := c, H := 1, W := 1, data := fun _ _ _ _ => 1 }

/-! ### Shape characterizations of the primitive operations -/

theorem convOutDim_3x3 (s d : ℕ) : convOutDim s 3 1 d d = (s : ℤ) := by
  unfold convOutDim
  have h2 : ((3 : ℕ) : ℤ) - 1 = 2 := by norm_num
  rw [h2]
  push_cast
  ring_nf
  omega

theorem convOutDim_1x1 (s : ℕ) : convOutDim s 1 1 0 1 = (s : ℤ) := by
  unfold convOutDim
  norm_num

theorem Conv2d.apply_some {c : Conv2d} {x y : Tensor} (h : c.apply x = some y) :
    x.C = c.inC ∧ 1 ≤ convOutDim x.H c.k c.stride c.p c.d ∧
      1 ≤ convOutDim x.W c.k c.stride c.p c.d ∧ y = c.outT x := by
  unfold Conv2d.apply at h
  split at h
  · next hc => exact ⟨hc.1, hc.2.1, hc.2.2, (Option.some.injEq _ _ ▸ h).symm⟩
  · exact absurd h (by simp)

theorem Conv2d.apply_pos {c : Conv2d} {x : Tensor}
    (h : x.C = c.inC ∧ 1 ≤ convOutDim x.H c.k c.stride c.p c.d ∧
      1 ≤ convOutDim x.W c.k c.stride c.p c.d) :
    c.apply x = some (c.outT x) := by
  unfold Conv2d.apply
  exact if_pos h

theorem Conv2d.apply_neg {c : Conv2d} {x : Tensor} (h : x.C ≠ c.inC) :
    c.apply x = none := by
  unfold Conv2d.apply
  rw [if_neg]
  intro hc
  exact h hc.1

/-- Shapes produced by the `conv3x3` layers: spatial size is preserved for
every dilation because the padding equals the dilation. -/
theorem conv3x3_apply_some {inC outC d : ℕ} {w : ℕ → ℕ → ℕ → ℕ → ℚ}
    {x y : Tensor} (h : (conv3x3 inC outC d w).apply x = some y) :
    x.C = inC ∧ y.N = x.N ∧ y.C = outC ∧ y.H = x.H ∧ y.W = x.W := by
  obtain ⟨hC, _, _, hy⟩ := Conv2d.apply_some h
  subst hy
  refine ⟨hC, rfl, rfl, ?_, ?_⟩ <;>
    simp [Conv2d.outT, conv3x3, convOutDim_3x3]

theorem conv3x3_apply_pos {inC outC d : ℕ} {w : ℕ → ℕ → ℕ → ℕ → ℚ}
    {x : Tensor} (hC : x.C = inC) (hH : 1 ≤ x.H) (hW : 1 ≤ x.W) :
    (conv3x3 inC outC d w).apply x = some ((conv3x3 inC outC d w).outT x) := by
  refine Conv2d.apply_pos ⟨hC, ?_, ?_⟩ <;>
    simp [conv3x3, convOutDim_3x3] <;> omega

theorem conv1x1_apply_some {inC outC : ℕ} {w : ℕ → ℕ → ℕ → ℕ → ℚ}
    {x y : Tensor} (h : (conv1x1 inC outC w).apply x = some y) :
    x.C = inC ∧ y.N = x.N ∧ y.C = outC ∧ y.H = x.H ∧ y.W = x.W := by
  obtain ⟨hC, _, _, hy⟩ := Conv2d.apply_some h
  subst hy
  refine ⟨hC, rfl, rfl, ?_, ?_⟩ <;>
    simp [Conv2d.outT, conv1x1, convOutDim_1x1]

theorem conv1x1_apply_pos {inC outC : ℕ} {w : ℕ → ℕ → ℕ → ℕ → ℚ}
    {x : Tensor} (hC : x.C = inC) (hH : 1 ≤ x.H) (hW : 1 ≤ x.W) :
    (conv1x1 inC outC w).apply x = some ((conv1x1 inC outC w).outT x) := by
  refine Conv2d.apply_pos ⟨hC, ?_, ?_⟩ <;>
    simp [conv1x1, convOutDim_1x1] <;> omega

theorem conv3x3b_apply_some {inC outC : ℕ} {w : ℕ → ℕ → ℕ → ℕ → ℚ} {b : ℕ → ℚ}
    {x y : Tensor} (h : (conv3x3b inC outC w b).apply x = some y) :
    x.C = inC ∧ y.N = x.N ∧ y.C = outC ∧ y.H = x.H ∧ y.W = x.W := by
  obtain ⟨hC, _, _, hy⟩ := Conv2d.apply_some h
  subst hy
  refine ⟨hC, rfl, rfl, ?_, ?_⟩ <;>
    simp [Conv2d.outT, conv3x3b, convOutDim_3x3]

theorem conv3x3b_apply_pos {inC outC : ℕ} {w : ℕ → ℕ → ℕ → ℕ → ℚ} {b : ℕ → ℚ}
    {x : Tensor} (hC : x.C = inC) (hH : 1 ≤ x.H) (hW : 1 ≤ x.W) :
    (conv3x3b inC outC w b).apply x = some ((conv3x3b inC outC w b).outT x) := by
  refine Conv2d.apply_pos ⟨hC, ?_, ?_⟩ <;>
    simp [conv3x3b, convOutDim_3x3] <;> omega

theorem tcat_some {a b y : Tensor} (h : tcat a b = some y) :
    y.N = a.N ∧ y.C = a.C + b.C ∧ y.H = a.H ∧ y.W = a.W := by
  unfold tcat at h
  split at h
  · cases h; exact ⟨rfl, rfl, rfl, rfl⟩
  · exact absurd h (by simp)

theorem tadd_some {a b y : Tensor} (h : tadd a b = some y) :
    y.N = a.N ∧ y.C = a.C ∧ y.H = a.H ∧ y.W = a.W := by
  unfold tadd at h
  split at h
  · cases h; exact ⟨rfl, rfl, rfl, rfl⟩
  · exact absurd h (by simp)

theorem pixelShuffle_some {r : ℕ} {x y : Tensor} (h : pixelShuffle r x = some y) :
    y.N = x.N ∧ y.C = x.C / (r * r) ∧ y.H = x.H * r ∧ y.W = x.W * r := by
  unfold pixelShuffle at h
  split at h
  · cases h; exact ⟨rfl, rfl, rfl, rfl⟩
  · exact absurd h (by simp)

theorem Tensor.map_shape (t : Tensor) (f : ℚ → ℚ) :
    (t.map f).N = t.N ∧ (t.map f).C = t.C ∧ (t.map f).H = t.H ∧ (t.map f).W = t.W :=
  ⟨rfl, rfl, rfl, rfl⟩

theorem Tensor.pix_inRange (t : Tensor) (n c i j : ℕ) (hi : i < t.H) (hj : j < t.W) :
    t.pix n c i j = t.data n c i j := by
  unfold Tensor.pix
  rw [if_pos]
  · simp
  · refine ⟨by positivity, ?_, by positivity, ?_⟩ <;> exact_mod_cast ‹_›

/-- The `MeanShift` convolution, evaluated: on a 3-channel input it succeeds
and each in-range entry is the input entry plus `mean c * sign`. -/
theorem meanShift_forward_eq (mean : ℕ → ℚ) (sub : Bool) (x : Tensor)
    (hC : x.C = 3) (hH : 1 ≤ x.H) (hW : 1 ≤ x.W) :
    ∃ y, (MeanShift.init mean sub).forward x = some y ∧
      y.N = x.N ∧ y.C = 3 ∧ y.H = x.H ∧ y.W = x.W ∧
      ∀ n c i j, c < 3 → i < x.H → j < x.W →
        y.data n c i j = x.data n c i j + mean c * (if sub then -1 else 1) := by
  have hap : (MeanShift.init mean sub).forward x =
      some ((MeanShift.init mean sub).shifter.outT x) := by
    refine Conv2d.apply_pos ⟨hC, ?_, ?_⟩ <;>
      simp [MeanShift.init, convOutDim_1x1] <;> omega
  refine ⟨_, hap, rfl, rfl, ?_, ?_, ?_⟩
  · simp [MeanShift.init, Conv2d.outT, convOutDim_1x1]
  · simp [MeanShift.init, Conv2d.outT, convOutDim_1x1]
  · intro n c i j hc hi hj
    have hmem : c ∈ Finset.range 3 := Finset.mem_range.mpr hc
    simp only [MeanShift.init, Conv2d.outT]
    rw [Finset.sum_congr rfl (fun ci _ => Finset.sum_range_one ..)]
    rw [Finset.sum_congr rfl (fun ci _ => by rw [Finset.sum_range_one])]
    simp only [Nat.cast_zero, zero_mul, Nat.cast_one, mul_one, add_zero, sub_zero,
      ite_mul, one_mul, zero_mul]
    rw [Finset.sum_ite_eq (Finset.range 3) c (fun ci => x.pix n ci i j)]
    rw [if_pos hmem]
    rw [Tensor.pix_inRange x n c i j hi hj]
    ring

/-! ### Shape characterizations of the blocks -/

theorem basicBlock_forward_some {inC outC d : ℕ} {act : ℚ → ℚ}
    {w : ℕ → ℕ → ℕ → ℕ → ℚ} {x y : Tensor}
    (h : (BasicBlock.init inC outC d act w).forward x = some y) :
    x.C = inC ∧ y.N = x.N ∧ y.C = outC ∧ y.H = x.H ∧ y.W = x.W := by
  unfold BasicBlock.forward BasicBlock.init at h
  rw [Option.map_eq_some'] at h
  obtain ⟨t, ht, hy⟩ := h
  obtain ⟨hC, hN, hCo, hH, hW⟩ := conv3x3_apply_some ht
  subst hy
  exact ⟨hC, hN, hCo, hH, hW⟩

theorem residualBlock_forward_some {inC outC d : ℕ} {act : ℚ → ℚ}
    {w1 w2 wid : ℕ → ℕ → ℕ → ℕ → ℚ} {x y : Tensor}
    (h : (ResidualBlock.init inC outC d act w1 w2 wid).forward x = some y) :
    x.C = inC ∧ y.N = x.N ∧ y.C = outC ∧ y.H = x.H ∧ y.W = x.W := by
  simp only [ResidualBlock.forward, ResidualBlock.body, Option.bind_eq_some,
    Option.map_eq_some'] at h
  obtain ⟨o, ⟨t1, ht1, ht2⟩, xs, _, s, hs, hy⟩ := h
  obtain ⟨hC, hN1, hC1, hH1, hW1⟩ := conv3x3_apply_some ht1
  obtain ⟨_, hN2, hC2, hH2, hW2⟩ := conv3x3_apply_some ht2
  obtain ⟨aN, aC, aH, aW⟩ := tadd_some hs
  subst hy
  refine ⟨hC, ?_, ?_, ?_, ?_⟩ <;>
    simp [Tensor.map, aN, aC, aH, aW, hN2, hC2, hH2, hW2, hN1, hH1, hW1]

theorem mdBlock_forward_some {inC outC d0 d1 : ℕ} {act : ℚ → ℚ}
    {w0 w1 we : ℕ → ℕ → ℕ → ℕ → ℚ} {x y : Tensor}
    (h : (MDBlock.init inC outC d0 d1 act w0 w1 we).forward x = some y) :
    x.C = inC ∧ y.N = x.N ∧ y.C = outC ∧ y.H = x.H ∧ y.W = x.W := by
  simp only [MDBlock.forward, MDBlock.init, Branch.forward, Option.bind_eq_some,
    Option.map_eq_some'] at h
  obtain ⟨b0, hb0, b1, _, c, hc, e, he, hy⟩ := h
  obtain ⟨hC, hN0, _, hH0, hW0⟩ := basicBlock_forward_some hb0
  obtain ⟨cN, _, cH, cW⟩ := tcat_some hc
  obtain ⟨_, eN, eC, eH, eW⟩ := conv1x1_apply_some he
  subst hy
  refine ⟨hC, ?_, ?_, ?_, ?_⟩ <;>
    simp [Tensor.map, eN, eC, eH, eW, cN, cH, cW, hN0, hH0, hW0]

theorem mdrBlockA_forward_some {inC outC d0 d1 : ℕ} {act : ℚ → ℚ}
    {w01 w02 w0id w11 w12 w1id we : ℕ → ℕ → ℕ → ℕ → ℚ} {x y : Tensor}
    (h : (MDRBlockA.init inC outC d0 d1 act w01 w02 w0id w11 w12 w1id we).forward x
      = some y) :
    x.C = inC ∧ y.N = x.N ∧ y.C = outC ∧ y.H = x.H ∧ y.W = x.W := by
  simp only [MDRBlockA.forward, MDRBlockA.init, Branch.forward,
    Option.bind_eq_some] at h
  obtain ⟨b0, hb0, b1, _, c, hc, e, he, ha⟩ := h
  obtain ⟨hC, hN0, _, hH0, hW0⟩ := residualBlock_forward_some hb0
  obtain ⟨cN, _, cH, cW⟩ := tcat_some hc
  obtain ⟨_, eN, eC, eH, eW⟩ := conv1x1_apply_some he
  obtain ⟨aN, aC, aH, aW⟩ := tadd_some ha
  refine ⟨hC, ?_, ?_, ?_, ?_⟩ <;>
    simp [Tensor.map, aN, aC, aH, aW, eN, eC, eH, eW, cN, cH, cW, hN0, hH0, hW0]

theorem mdrBlockB_forward_some {inC redC outC d0 d1 : ℕ} {act : ℚ → ℚ}
    {wr1 w11 w12 w1id wr2 w21 w22 w2id we : ℕ → ℕ → ℕ → ℕ → ℚ} {x y : Tensor}
    (h : (MDRBlockB.init inC redC outC d0 d1 act
      wr1 w11 w12 w1id wr2 w21 w22 w2id we).forward x = some y) :
    x.C = inC ∧ y.N = x.N ∧ y.C = outC ∧ y.H = x.H ∧ y.W = x.W := by
  simp only [MDRBlockB.forward, MDRBlockB.init, Option.bind_eq_some] at h
  obtain ⟨r1, hr1, b1, hb1, r2, _, b2, _, c, hc, e, he, ha⟩ := h
  obtain ⟨hC, rN, rC, rH, rW⟩ := conv1x1_apply_some hr1
  obtain ⟨_, bN, bC, bH, bW⟩ := residualBlock_forward_some hb1
  obtain ⟨cN, _, cH, cW⟩ := tcat_some hc
  obtain ⟨_, eN, eC, eH, eW⟩ := conv1x1_apply_some he
  obtain ⟨aN, aC, aH, aW⟩ := tadd_some ha
  refine ⟨hC, ?_, ?_, ?_, ?_⟩ <;>
    simp [Tensor.map, aN, aC, aH, aW, eN, eC, eH, eW, cN, cH, cW,
      bN, bH, bW, rN, rH, rW]

/-! ### Claim theorems -/

/-- C1: the code_bug evidence.  `Net.__init__` calls
`ops.UpsampleBlock(64, scale=scale, multi_scale=multi_scale,
reduce=reduce_upsample)` although `ops.UpsampleBlock.__init__` accepts only
`(n_channels, scale, act=False)`, and `Net.forward` calls
`self.upsample(out, scale=scale)` although `ops.UpsampleBlock.forward`
accepts only `(x)`: neither call binds, so constructing `Net` and running
its forward both raise a `TypeError` instead of returning the composed
pipeline the claim describes. -/
theorem net_upsample_calls_do_not_bind :
    callBinds upsampleInitSig 1 netUpsampleInitKwargs = false ∧
    callBinds upsampleForwardSig 1 netUpsampleCallKwargs = false := by
  constructor <;> decide

/-- C3: `ResidualBlock.forward` returns `act(body(x) + s(x))` where the
shortcut `s` is the identity when `in_channels = out_channels` and the 1x1
channel-matching convolution built from `wid` when they differ. -/
theorem residualBlock_optional_shortcut (inC outC d : ℕ) (act : ℚ → ℚ)
    (w1 w2 wid : ℕ → ℕ → ℕ → ℕ → ℚ) (x : Tensor) :
    (inC = outC →
      (ResidualBlock.init inC outC d act w1 w2 wid).forward x =
        ((ResidualBlock.init inC outC d act w1 w2 wid).body x).bind fun o =>
          (tadd o x).map fun s => Tensor.map s act) ∧
    (inC ≠ outC →
      (ResidualBlock.init inC outC d act w1 w2 wid).forward x =
        ((ResidualBlock.init inC outC d act w1 w2 wid).body x).bind fun o =>
          ((conv1x1 inC outC wid).apply x).bind fun xs =>
            (tadd o xs).map fun s => Tensor.map s act) := by
  constructor <;> intro h
  · simp [ResidualBlock.forward, ResidualBlock.init, h]
  · simp [ResidualBlock.forward, ResidualBlock.init, h]

/-- C3 witness: the shortcut cases at concrete channel counts 1 = 1 and
1 ≠ 2. -/
theorem residualBlock_optional_shortcut_witness :
    ((1 : ℕ) = 1 ∧
      (ResidualBlock.init 1 1 1 relu zeroW zeroW zeroW).forward (onesT 1) =
        ((ResidualBlock.init 1 1 1 relu zeroW zeroW zeroW).body (onesT 1)).bind fun o =>
          (tadd o (onesT 1)).map fun s => Tensor.map s relu) ∧
    ((1 : ℕ) ≠ 2 ∧
      (ResidualBlock.init 1 2 1 relu zeroW zeroW zeroW).forward (onesT 1) =
        ((ResidualBlock.init 1 2 1 relu zeroW zeroW zeroW).body (onesT 1)).bind fun o =>
          ((conv1x1 1 2 zeroW).apply (onesT 1)).bind fun xs =>
            (tadd o xs).map fun s => Tensor.map s relu) :=
  ⟨⟨rfl, (residualBlock_optional_shortcut 1 1 1 relu zeroW zeroW zeroW (onesT 1)).1 rfl⟩,
   ⟨by decide, (residualBlock_optional_shortcut 1 2 1 relu zeroW zeroW zeroW (onesT 1)).2
      (by decide)⟩⟩

/-- C4: on a 3-channel input, `MeanShift(mean_rgb, sub=True)` subtracts
`mean_rgb[c]` from every pixel of channel `c` and `MeanShift(mean_rgb,
sub=False)` adds it, leaving the values otherwise unchanged. -/
theorem meanShift_sub_add_mean (mean : ℕ → ℚ) (x : Tensor)
    (hC : x.C = 3) (hH : 1 ≤ x.H) (hW : 1 ≤ x.W) :
    (∃ y, (MeanShift.init mean true).forward x = some y ∧
      y.N = x.N ∧ y.C = x.C ∧ y.H = x.H ∧ y.W = x.W ∧
      ∀ n c i j, c < 3 → i < x.H → j < x.W →
        y.data n c i j = x.data n c i j - mean c) ∧
    (∃ y, (MeanShift.init mean false).forward x = some y ∧
      y.N = x.N ∧ y.C = x.C ∧ y.H = x.H ∧ y.W = x.W ∧
      ∀ n c i j, c < 3 → i < x.H → j < x.W →
        y.data n c i j = x.data n c i j + mean c) := by
  obtain ⟨y1, h1, hN1, hC1, hH1, hW1, hd1⟩ := meanShift_forward_eq mean true x hC hH hW
  obtain ⟨y2, h2, hN2, hC2, hH2, hW2, hd2⟩ := meanShift_forward_eq mean false x hC hH hW
  constructor
  · refine ⟨y1, h1, hN1, by rw [hC1, hC], hH1, hW1, fun n c i j hc hi hj => ?_⟩
    rw [hd1 n c i j hc hi hj]
    norm_num
    ring
  · refine ⟨y2, h2, hN2, by rw [hC2, hC], hH2, hW2, fun n c i j hc hi hj => ?_⟩
    rw [hd2 n c i j hc hi hj]
    norm_num

/-- C4 witness: the mean shift evaluated on a concrete 3-channel image. -/
theorem meanShift_sub_add_mean_witness :
    (onesT 3).C = 3 ∧ 1 ≤ (onesT 3).H ∧ 1 ≤ (onesT 3).W ∧
    ((∃ y, (MeanShift.init netMean true).forward (onesT 3) = some y ∧
      y.N = (onesT 3).N ∧ y.C = (onesT 3).C ∧ y.H = (onesT 3).H ∧ y.W = (onesT 3).W ∧
      ∀ n c i j, c < 3 → i < (onesT 3).H → j < (onesT 3).W →
        y.data n c i j = (onesT 3).data n c i j - netMean c) ∧
    (∃ y, (MeanShift.init netMean false).forward (onesT 3) = some y ∧
      y.N = (onesT 3).N ∧ y.C = (onesT 3).C ∧ y.H = (onesT 3).H ∧ y.W = (onesT 3).W ∧
      ∀ n c i j, c < 3 → i < (onesT 3).H → j < (onesT 3).W →
        y.data n c i j = (onesT 3).data n c i j + netMean c)) :=
  ⟨rfl, by decide, by decide,
    meanShift_sub_add_mean netMean (onesT 3) rfl (by decide) (by decide)⟩

/-- C8: subtracting the mean and then adding it back (as `Net` does with
`sub_mean` at the entry and `add_mean` at the exit) returns the input tensor
exactly, in exact rational arithmetic. -/
theorem meanShift_roundtrip (mean : ℕ → ℚ) (x : Tensor)
    (hC : x.C = 3) (hH : 1 ≤ x.H) (hW : 1 ≤ x.W) :
    ∃ y, ((MeanShift.init mean true).forward x).bind
        (MeanShift.init mean false).forward = some y ∧ y.EqOn x := by
  obtain ⟨y1, h1, hN1, hC1, hH1, hW1, hd1⟩ := meanShift_forward_eq mean true x hC hH hW
  obtain ⟨y2, h2, hN2, hC2, hH2, hW2, hd2⟩ :=
    meanShift_forward_eq mean false y1 hC1 (hH1 ▸ hH) (hW1 ▸ hW)
  refine ⟨y2, by rw [h1, Option.some_bind, h2], ⟨hN2.trans hN1, by rw [hC2, hC], ?_, ?_⟩, ?_⟩
  · rw [hH2, hH1]
  · rw [hW2, hW1]
  · intro n _ c hc i hi j hj
    rw [hC2] at hc
    rw [hH2, hH1] at hi
    rw [hW2, hW1] at hj
    rw [hd2 n c i j hc (hH1 ▸ hi) (hW1 ▸ hj), hd1 n c i j hc hi hj]
    norm_num

/-- C8 witness: the round trip evaluated on a concrete 3-channel image. -/
theorem meanShift_roundtrip_witness :
    (onesT 3).C = 3 ∧ 1 ≤ (onesT 3).H ∧ 1 ≤ (onesT 3).W ∧
    ∃ y, ((MeanShift.init netMean true).forward (onesT 3)).bind
        (MeanShift.init netMean false).forward = some y ∧ y.EqOn (onesT 3) :=
  ⟨rfl, by decide, by decide,
    meanShift_roundtrip netMean (onesT 3) rfl (by decide) (by decide)⟩

/-- C9: for any scale outside {2, 3, 4, 8}, `UpsampleBlock.__init__` builds
an empty module list and `forward` returns its input unchanged. -/
theorem upsampleBlock_unsupported_scale_identity (n scale : ℕ)
    (act : Option (ℚ → ℚ)) (ws : ℕ → (ℕ → ℕ → ℕ → ℕ → ℚ) × (ℕ → ℚ))
    (h2 : scale ≠ 2) (h3 : scale ≠ 3) (h4 : scale ≠ 4) (h8 : scale ≠ 8) :
    (UpsampleBlock.init n scale act ws).body = [] ∧
    ∀ x, (UpsampleBlock.init n scale act ws).forward x = some x := by
  have hbody : (UpsampleBlock.init n scale act ws).body = [] := by
    simp [UpsampleBlock.init, h2, h3, h4, h8]
  exact ⟨hbody, fun x => by unfold UpsampleBlock.forward; rw [hbody]; rfl⟩

/-- C9 witness: scale 5 builds the empty body and forward is the identity
on a concrete tensor. -/
theorem upsampleBlock_unsupported_scale_identity_witness :
    (5 : ℕ) ≠ 2 ∧ (5 : ℕ) ≠ 3 ∧ (5 : ℕ) ≠ 4 ∧ (5 : ℕ) ≠ 8 ∧
    ((UpsampleBlock.init 1 5 none (fun _ => (zeroW, zeroB))).body = [] ∧
      ∀ x, (UpsampleBlock.init 1 5 none (fun _ => (zeroW, zeroB))).forward x = some x) :=
  ⟨by decide, by decide, by decide, by decide,
    upsampleBlock_unsupported_scale_identity 1 5 none (fun _ => (zeroW, zeroB))
      (by decide) (by decide) (by decide) (by decide)⟩

/-- C5 (amended): `MDRBlockA.forward` computes `exit(cat(branch0(x),
branch1(x))) + x`, concatenating along the channel dimension, where both
branches are `ResidualBlock`s with dilations `dilation[0]` and `dilation[1]`
and `int(out_channels/2)` output channels each, and the exit is a 1x1
convolution followed by the activation.  `MDBlock` computes the same
composition without the final `+ x`, but its branches are `BasicBlock`s
(a single 3x3 dilated convolution plus activation), not residual blocks. -/
theorem mdrBlockA_mdBlock_structure (inC outC d0 d1 : ℕ) (act : ℚ → ℚ)
    (w01 w02 w0id w11 w12 w1id wea w0 w1 web : ℕ → ℕ → ℕ → ℕ → ℚ) (x : Tensor) :
    ((MDRBlockA.init inC outC d0 d1 act w01 w02 w0id w11 w12 w1id wea).branch0 =
        Branch.residual (ResidualBlock.init inC (outC / 2) d0 act w01 w02 w0id) ∧
      (MDRBlockA.init inC outC d0 d1 act w01 w02 w0id w11 w12 w1id wea).branch1 =
        Branch.residual (ResidualBlock.init inC (outC / 2) d1 act w11 w12 w1id) ∧
      (MDRBlockA.init inC outC d0 d1 act w01 w02 w0id w11 w12 w1id wea).forward x =
        ((ResidualBlock.init inC (outC / 2) d0 act w01 w02 w0id).forward x).bind fun b0 =>
          ((ResidualBlock.init inC (outC / 2) d1 act w11 w12 w1id).forward x).bind fun b1 =>
            (tcat b0 b1).bind fun c =>
              ((conv1x1 outC outC wea).apply c).bind fun e => tadd (e.map act) x) ∧
    ((MDBlock.init inC outC d0 d1 act w0 w1 web).branch0 =
        Branch.basic (BasicBlock.init inC (outC / 2) d0 act w0) ∧
      (MDBlock.init inC outC d0 d1 act w0 w1 web).branch1 =
        Branch.basic (BasicBlock.init inC (outC / 2) d1 act w1) ∧
      (MDBlock.init inC outC d0 d1 act w0 w1 web).branch0.isResidual = false ∧
      (MDBlock.init inC outC d0 d1 act w0 w1 web).forward x =
        ((BasicBlock.init inC (outC / 2) d0 act w0).forward x).bind fun b0 =>
          ((BasicBlock.init inC (outC / 2) d1 act w1).forward x).bind fun b1 =>
            (tcat b0 b1).bind fun c =>
              ((conv1x1 outC outC web).apply c).map fun e => Tensor.map e act) := by
  refine ⟨⟨rfl, rfl, ?_⟩, rfl, rfl, rfl, ?_⟩ <;>
    simp [MDRBlockA.forward, MDRBlockA.init, MDBlock.forward, MDBlock.init,
      Branch.forward, Tensor.map]

/-- C5 counterexample: the claim describes `MDBlock`'s branches as residual
blocks; at concrete parameters (in_channels 4, out_channels 4, dilations
2 and 4, zero weights) `MDBlock.__init__` constructs `BasicBlock` branches,
which are not `ResidualBlock` instances. -/
theorem mdBlock_branch_not_residual :
    (MDBlock.init 4 4 2 4 relu zeroW zeroW zeroW).branch0.isResidual = false ∧
    (MDBlock.init 4 4 2 4 relu zeroW zeroW zeroW).branch1.isResidual = false :=
  ⟨rfl, rfl⟩

/-- C6: every forward is a pure function of the module parameters and the
input tensor: equal parameters and equal inputs give equal outputs for
`MeanShift`, `BasicBlock`, `MDBlock`, `ResidualBlock`, `MDRBlockA`,
`MDRBlockB`, `UpsampleBlock` and `Net`. -/
theorem forwards_deterministic :
    (∀ (m₁ m₂ : MeanShift) (x₁ x₂ : Tensor), m₁ = m₂ → x₁ = x₂ →
      m₁.forward x₁ = m₂.forward x₂) ∧
    (∀ (b₁ b₂ : BasicBlock) (x₁ x₂ : Tensor), b₁ = b₂ → x₁ = x₂ →
      b₁.forward x₁ = b₂.forward x₂) ∧
    (∀ (m₁ m₂ : MDBlock) (x₁ x₂ : Tensor), m₁ = m₂ → x₁ = x₂ →
      m₁.forward x₁ = m₂.forward x₂) ∧
    (∀ (r₁ r₂ : ResidualBlock) (x₁ x₂ : Tensor), r₁ = r₂ → x₁ = x₂ →
      r₁.forward x₁ = r₂.forward x₂) ∧
    (∀ (m₁ m₂ : MDRBlockA) (x₁ x₂ : Tensor), m₁ = m₂ → x₁ = x₂ →
      m₁.forward x₁ = m₂.forward x₂) ∧
    (∀ (m₁ m₂ : MDRBlockB) (x₁ x₂ : Tensor), m₁ = m₂ → x₁ = x₂ →
      m₁.forward x₁ = m₂.forward x₂) ∧
    (∀ (u₁ u₂ : UpsampleBlock) (x₁ x₂ : Tensor), u₁ = u₂ → x₁ = x₂ →
      u₁.forward x₁ = u₂.forward x₂) ∧
    (∀ (n₁ n₂ : Net) (x₁ x₂ : Tensor), n₁ = n₂ → x₁ = x₂ →
      n₁.forwardPipeline x₁ = n₂.forwardPipeline x₂) := by
  refine ⟨?_, ?_, ?_, ?_, ?_, ?_, ?_, ?_⟩ <;>
    exact fun a b u v h1 h2 => by rw [h1, h2]

/-- C6 witness: determinism instantiated at concrete modules and inputs. -/
theorem forwards_deterministic_witness :
    (MeanShift.init netMean true).forward (onesT 3) =
      (MeanShift.init netMean true).forward (onesT 3) ∧
    (BasicBlock.init 1 1 1 relu zeroW).forward (onesT 1) =
      (BasicBlock.init 1 1 1 relu zeroW).forward (onesT 1) ∧
    (MDBlock.init 2 2 2 4 relu zeroW zeroW zeroW).forward (onesT 2) =
      (MDBlock.init 2 2 2 4 relu zeroW zeroW zeroW).forward (onesT 2) ∧
    (ResidualBlock.init 1 1 1 relu zeroW zeroW zeroW).forward (onesT 1) =
      (ResidualBlock.init 1 1 1 relu zeroW zeroW zeroW).forward (onesT 1) ∧
    (MDRBlockA.init 2 2 2 4 relu zeroW zeroW zeroW zeroW zeroW zeroW zeroW).forward
        (onesT 2) =
      (MDRBlockA.init 2 2 2 4 relu zeroW zeroW zeroW zeroW zeroW zeroW zeroW).forward
        (onesT 2) ∧
    (MDRBlockB.init 1 1 1 2 4 relu zeroW zeroW zeroW zeroW zeroW zeroW zeroW zeroW
        zeroW).forward (onesT 1) =
      (MDRBlockB.init 1 1 1 2 4 relu zeroW zeroW zeroW zeroW zeroW zeroW zeroW zeroW
        zeroW).forward (onesT 1) ∧
    (UpsampleBlock.init 1 2 none (fun _ => (zeroW, zeroB))).forward (onesT 1) =
      (UpsampleBlock.init 1 2 none (fun _ => (zeroW, zeroB))).forward (onesT 1) ∧
    (Net.init 2 zeroW zeroB (fun _ => zeroW) (fun _ => zeroW) (fun _ => zeroW)
        (fun _ => (zeroW, zeroB)) zeroW zeroB).forwardPipeline (onesT 3) =
      (Net.init 2 zeroW zeroB (fun _ => zeroW) (fun _ => zeroW) (fun _ => zeroW)
        (fun _ => (zeroW, zeroB)) zeroW zeroB).forwardPipeline (onesT 3) :=
  ⟨forwards_deterministic.1 _ _ _ _ rfl rfl,
   forwards_deterministic.2.1 _ _ _ _ rfl rfl,
   forwards_deterministic.2.2.1 _ _ _ _ rfl rfl,
   forwards_deterministic.2.2.2.1 _ _ _ _ rfl rfl,
   forwards_deterministic.2.2.2.2.1 _ _ _ _ rfl rfl,
   forwards_deterministic.2.2.2.2.2.1 _ _ _ _ rfl rfl,
   forwards_deterministic.2.2.2.2.2.2.1 _ _ _ _ rfl rfl,
   forwards_deterministic.2.2.2.2.2.2.2 _ _ _ _ rfl rfl⟩

/-- C10: each branch produces `int(out_channels/2)` channels, so for even
`out_channels` the concatenation has exactly the channels the exit 1x1
convolution expects, while for odd `out_channels` the concatenation has
`out_channels - 1` channels and both `MDBlock.forward` and
`MDRBlockA.forward` fail on every input. -/
theorem mdBlocks_require_even_out_channels (inC outC d0 d1 : ℕ) (act : ℚ → ℚ)
    (w0 w1 web w01 w02 w0id w11 w12 w1id wea : ℕ → ℕ → ℕ → ℕ → ℚ) :
    (outC % 2 = 0 →
      (MDBlock.init inC outC d0 d1 act w0 w1 web).branch0.outC +
          (MDBlock.init inC outC d0 d1 act w0 w1 web).branch1.outC =
        (MDBlock.init inC outC d0 d1 act w0 w1 web).exit.inC ∧
      (MDRBlockA.init inC outC d0 d1 act w01 w02 w0id w11 w12 w1id wea).branch0.outC +
          (MDRBlockA.init inC outC d0 d1 act w01 w02 w0id w11 w12 w1id wea).branch1.outC =
        (MDRBlockA.init inC outC d0 d1 act w01 w02 w0id w11 w12 w1id wea).exit.inC) ∧
    (outC % 2 = 1 →
      (∀ x, (MDBlock.init inC outC d0 d1 act w0 w1 web).forward x = none) ∧
      (∀ x, (MDRBlockA.init inC outC d0 d1 act w01 w02 w0id w11 w12 w1id
        wea).forward x = none)) := by
  constructor
  · intro heven
    constructor <;>
      · simp [MDBlock.init, MDRBlockA.init, Branch.outC, BasicBlock.init,
          ResidualBlock.init, conv3x3, conv1x1]
        omega
  · intro hodd
    constructor <;> intro x
    · rcases hb0 : (BasicBlock.init inC (outC / 2) d0 act w0).forward x with _ | b0
      · simp [MDBlock.forward, MDBlock.init, Branch.forward, hb0]
      rcases hb1 : (BasicBlock.init inC (outC / 2) d1 act w1).forward x with _ | b1
      · simp [MDBlock.forward, MDBlock.init, Branch.forward, hb0, hb1]
      rcases hc : tcat b0 b1 with _ | c
      · simp [MDBlock.forward, MDBlock.init, Branch.forward, hb0, hb1, hc]
      have hc0 : b0.C = outC / 2 := (basicBlock_forward_some hb0).2.2.1
      have hc1 : b1.C = outC / 2 := (basicBlock_forward_some hb1).2.2.1
      have hcc : c.C = b0.C + b1.C := (tcat_some hc).2.1
      have hexit : (conv1x1 outC outC web).apply c = none := by
        apply Conv2d.apply_neg
        simp only [conv1x1]
        omega
      simp [MDBlock.forward, MDBlock.init, Branch.forward, hb0, hb1, hc, hexit]
    · rcases hb0 : (ResidualBlock.init inC (outC / 2) d0 act w01 w02 w0id).forward x
        with _ | b0
      · simp [MDRBlockA.forward, MDRBlockA.init, Branch.forward, hb0]
      rcases hb1 : (ResidualBlock.init inC (outC / 2) d1 act w11 w12 w1id).forward x
        with _ | b1
      · simp [MDRBlockA.forward, MDRBlockA.init, Branch.forward, hb0, hb1]
      rcases hc : tcat b0 b1 with _ | c
      · simp [MDRBlockA.forward, MDRBlockA.init, Branch.forward, hb0, hb1, hc]
      have hc0 : b0.C = outC / 2 := (residualBlock_forward_some hb0).2.2.1
      have hc1 : b1.C = outC / 2 := (residualBlock_forward_some hb1).2.2.1
      have hcc : c.C = b0.C + b1.C := (tcat_some hc).2.1
      have hexit : (conv1x1 outC outC wea).apply c = none := by
        apply Conv2d.apply_neg
        simp only [conv1x1]
        omega
      simp [MDRBlockA.forward, MDRBlockA.init, Branch.forward, hb0, hb1, hc, hexit]

/-- C10 witness: the even case at out_channels 4 and the odd case at
out_channels 3, on a concrete input. -/
theorem mdBlocks_require_even_out_channels_witness :
    ((4 : ℕ) % 2 = 0 ∧
      (MDBlock.init 2 4 2 4 relu zeroW zeroW zeroW).branch0.outC +
          (MDBlock.init 2 4 2 4 relu zeroW zeroW zeroW).branch1.outC =
        (MDBlock.init 2 4 2 4 relu zeroW zeroW zeroW).exit.inC ∧
      (MDRBlockA.init 2 4 2 4 relu zeroW zeroW zeroW zeroW zeroW zeroW
            zeroW).branch0.outC +
          (MDRBlockA.init 2 4 2 4 relu zeroW zeroW zeroW zeroW zeroW zeroW
            zeroW).branch1.outC =
        (MDRBlockA.init 2 4 2 4 relu zeroW zeroW zeroW zeroW zeroW zeroW
          zeroW).exit.inC) ∧
    ((3 : ℕ) % 2 = 1 ∧
      (∀ x, (MDBlock.init 2 3 2 4 relu zeroW zeroW zeroW).forward x = none) ∧
      (∀ x, (MDRBlockA.init 2 3 2 4 relu zeroW zeroW zeroW zeroW zeroW zeroW
        zeroW).forward x = none)) :=
  ⟨⟨by decide,
    (mdBlocks_require_even_out_channels 2 4 2 4 relu zeroW zeroW zeroW zeroW zeroW
      zeroW zeroW zeroW zeroW zeroW).1 (by decide)⟩,
   ⟨by decide,
    (mdBlocks_require_even_out_channels 2 3 2 4 relu zeroW zeroW zeroW zeroW zeroW
      zeroW zeroW zeroW zeroW zeroW).2 (by decide)⟩⟩

/-- C7: the non-upsampling blocks preserve the spatial size: every 3x3
stride-1 convolution uses padding equal to its dilation and every 1x1
convolution uses padding 0, so for every dilation ≥ 1 a successful forward
of `BasicBlock`, `ResidualBlock`, `MDBlock`, `MDRBlockA` or `MDRBlockB`
returns a tensor with the input's H and W. -/
theorem blocks_preserve_spatial_dims (d d0 d1 : ℕ)
    (_hd : 1 ≤ d) (_hd0 : 1 ≤ d0) (_hd1 : 1 ≤ d1) :
    (∀ (inC outC : ℕ) (w : ℕ → ℕ → ℕ → ℕ → ℚ),
      (conv3x3 inC outC d w).p = (conv3x3 inC outC d w).d ∧
      (conv1x1 inC outC w).p = 0) ∧
    (∀ (inC outC : ℕ) (act : ℚ → ℚ) (w : ℕ → ℕ → ℕ → ℕ → ℚ) (x y : Tensor),
      (BasicBlock.init inC outC d act w).forward x = some y →
        y.H = x.H ∧ y.W = x.W) ∧
    (∀ (inC outC : ℕ) (act : ℚ → ℚ) (w1 w2 wid : ℕ → ℕ → ℕ → ℕ → ℚ) (x y : Tensor),
      (ResidualBlock.init inC outC d act w1 w2 wid).forward x = some y →
        y.H = x.H ∧ y.W = x.W) ∧
    (∀ (inC outC : ℕ) (act : ℚ → ℚ) (w0 w1 we : ℕ → ℕ → ℕ → ℕ → ℚ) (x y : Tensor),
      (MDBlock.init inC outC d0 d1 act w0 w1 we).forward x = some y →
        y.H = x.H ∧ y.W = x.W) ∧
    (∀ (inC outC : ℕ) (act : ℚ → ℚ)
        (w01 w02 w0id w11 w12 w1id we : ℕ → ℕ → ℕ → ℕ → ℚ) (x y : Tensor),
      (MDRBlockA.init inC outC d0 d1 act w01 w02 w0id w11 w12 w1id we).forward x
          = some y → y.H = x.H ∧ y.W = x.W) ∧
    (∀ (inC redC outC : ℕ) (act : ℚ → ℚ)
        (wr1 w11 w12 w1id wr2 w21 w22 w2id we : ℕ → ℕ → ℕ → ℕ → ℚ) (x y : Tensor),
      (MDRBlockB.init inC redC outC d0 d1 act wr1 w11 w12 w1id wr2 w21 w22 w2id
        we).forward x = some y → y.H = x.H ∧ y.W = x.W) := by
  refine ⟨fun inC outC w => ⟨rfl, rfl⟩, ?_, ?_, ?_, ?_, ?_⟩
  · intro inC outC act w x y h
    exact ⟨(basicBlock_forward_some h).2.2.2.1, (basicBlock_forward_some h).2.2.2.2⟩
  · intro inC outC act w1 w2 wid x y h
    exact ⟨(residualBlock_forward_some h).2.2.2.1, (residualBlock_forward_some h).2.2.2.2⟩
  · intro inC outC act w0 w1 we x y h
    exact ⟨(mdBlock_forward_some h).2.2.2.1, (mdBlock_forward_some h).2.2.2.2⟩
  · intro inC outC act w01 w02 w0id w11 w12 w1id we x y h
    exact ⟨(mdrBlockA_forward_some h).2.2.2.1, (mdrBlockA_forward_some h).2.2.2.2⟩
  · intro inC redC outC act wr1 w11 w12 w1id wr2 w21 w22 w2id we x y h
    exact ⟨(mdrBlockB_forward_some h).2.2.2.1, (mdrBlockB_forward_some h).2.2.2.2⟩

/-- C7 witness: dilations 1, 2, 4 and a concrete successful `BasicBlock`
forward whose output keeps the 1x1 spatial size. -/
theorem blocks_preserve_spatial_dims_witness :
    1 ≤ 1 ∧ 1 ≤ 2 ∧ 1 ≤ 4 ∧
    ∃ y, (BasicBlock.init 1 1 1 relu zeroW).forward (onesT 1) = some y ∧
      y.H = (onesT 1).H ∧ y.W = (onesT 1).W := by
  refine ⟨by decide, by decide, by decide, ?_⟩
  have hap := @conv3x3_apply_pos 1 1 1 zeroW (onesT 1) rfl (by decide) (by decide)
  have hfwd : (BasicBlock.init 1 1 1 relu zeroW).forward (onesT 1) =
      some (Tensor.map ((conv3x3 1 1 1 zeroW).outT (onesT 1)) relu) := by
    simp [BasicBlock.forward, BasicBlock.init, hap, Tensor.map]
  exact ⟨_, hfwd,
    (blocks_preserve_spatial_dims 1 2 4 (by decide) (by decide) (by decide)).2.1
      1 1 relu zeroW (onesT 1) _ hfwd⟩

/-- One stage of `UpsampleBlock` for scales 2, 4, 8: a 3x3 convolution from
`n` to `4*n` channels followed by `PixelShuffle(2)` halves nothing and
doubles both spatial dimensions. -/
theorem upsample_stage2 (n : ℕ) (w : ℕ → ℕ → ℕ → ℕ → ℚ) (b : ℕ → ℚ)
    (rest : List Layer) (x : Tensor) (hC : x.C = n) (hH : 1 ≤ x.H) (hW : 1 ≤ x.W) :
    ∃ t, runLayers (Layer.conv (conv3x3b n (4 * n) w b) :: Layer.shuffle 2 :: rest) x =
        runLayers rest t ∧ t.N = x.N ∧ t.C = n ∧ t.H = x.H * 2 ∧ t.W = x.W * 2 := by
  have hap := @conv3x3b_apply_pos n (4 * n) w b x hC hH hW
  rcases hps : pixelShuffle 2 ((conv3x3b n (4 * n) w b).outT x) with _ | t2
  · exfalso
    have hdvd : 2 * 2 ∣ ((conv3x3b n (4 * n) w b).outT x).C :=
      ⟨n, by show 4 * n = 2 * 2 * n; ring⟩
    simp [pixelShuffle, hdvd] at hps
  · obtain ⟨psN, psC, psH, psW⟩ := pixelShuffle_some hps
    refine ⟨t2, ?_, ?_, ?_, ?_, ?_⟩
    · simp [runLayers, Layer.apply, hap, hps]
    · rw [psN]; rfl
    · rw [psC]
      show 4 * n / (2 * 2) = n
      omega
    · rw [psH]
      show ((convOutDim x.H 3 1 1 1).toNat) * 2 = x.H * 2
      rw [convOutDim_3x3]
      simp
    · rw [psW]
      show ((convOutDim x.W 3 1 1 1).toNat) * 2 = x.W * 2
      rw [convOutDim_3x3]
      simp

/-- The single stage of `UpsampleBlock` for scale 3: a 3x3 convolution from
`n` to `9*n` channels followed by `PixelShuffle(3)`. -/
theorem upsample_stage3 (n : ℕ) (w : ℕ → ℕ → ℕ → ℕ → ℚ) (b : ℕ → ℚ)
    (rest : List Layer) (x : Tensor) (hC : x.C = n) (hH : 1 ≤ x.H) (hW : 1 ≤ x.W) :
    ∃ t, runLayers (Layer.conv (conv3x3b n (9 * n) w b) :: Layer.shuffle 3 :: rest) x =
        runLayers rest t ∧ t.N = x.N ∧ t.C = n ∧ t.H = x.H * 3 ∧ t.W = x.W * 3 := by
  have hap := @conv3x3b_apply_pos n (9 * n) w b x hC hH hW
  rcases hps : pixelShuffle 3 ((conv3x3b n (9 * n) w b).outT x) with _ | t2
  · exfalso
    have hdvd : 3 * 3 ∣ ((conv3x3b n (9 * n) w b).outT x).C :=
      ⟨n, by show 9 * n = 3 * 3 * n; ring⟩
    simp [pixelShuffle, hdvd] at hps
  · obtain ⟨psN, psC, psH, psW⟩ := pixelShuffle_some hps
    refine ⟨t2, ?_, ?_, ?_, ?_, ?_⟩
    · simp [runLayers, Layer.apply, hap, hps]
    · rw [psN]; rfl
    · rw [psC]
      show 9 * n / (3 * 3) = n
      omega
    · rw [psH]
      show ((convOutDim x.H 3 1 1 1).toNat) * 3 = x.H * 3
      rw [convOutDim_3x3]
      simp
    · rw [psW]
      show ((convOutDim x.W 3 1 1 1).toNat) * 3 = x.W * 3
      rw [convOutDim_3x3]
      simp

/-- C2: `UpsampleBlock` selects its module list by the requested scale and
then computes straight-line tensor arithmetic: for scales 2, 4 and 8 the body
is `int(math.log(scale, 2))` stages of a 3x3 convolution from `n` to `4*n`
channels followed by `PixelShuffle(2)`; for scale 3 it is one 3x3 convolution
from `n` to `9*n` channels followed by `PixelShuffle(3)`; in every supported
case an input of shape (N, C, H, W) with `C = n_channels` yields an output of
shape (N, C, scale*H, scale*W). -/
theorem upsampleBlock_structure_and_scaling (n : ℕ)
    (ws : ℕ → (ℕ → ℕ → ℕ → ℕ → ℚ) × (ℕ → ℚ)) (x : Tensor)
    (hC : x.C = n) (hH : 1 ≤ x.H) (hW : 1 ≤ x.W) :
    ((UpsampleBlock.init n 2 none ws).body =
        [Layer.conv (conv3x3b n (4 * n) (ws 0).1 (ws 0).2), Layer.shuffle 2] ∧
      ∃ y, (UpsampleBlock.init n 2 none ws).forward x = some y ∧
        y.N = x.N ∧ y.C = x.C ∧ y.H = 2 * x.H ∧ y.W = 2 * x.W) ∧
    ((UpsampleBlock.init n 4 none ws).body =
        [Layer.conv (conv3x3b n (4 * n) (ws 0).1 (ws 0).2), Layer.shuffle 2,
         Layer.conv (conv3x3b n (4 * n) (ws 1).1 (ws 1).2), Layer.shuffle 2] ∧
      ∃ y, (UpsampleBlock.init n 4 none ws).forward x = some y ∧
        y.N = x.N ∧ y.C = x.C ∧ y.H = 4 * x.H ∧ y.W = 4 * x.W) ∧
    ((UpsampleBlock.init n 8 none ws).body =
        [Layer.conv (conv3x3b n (4 * n) (ws 0).1 (ws 0).2), Layer.shuffle 2,
         Layer.conv (conv3x3b n (4 * n) (ws 1).1 (ws 1).2), Layer.shuffle 2,
         Layer.conv (conv3x3b n (4 * n) (ws 2).1 (ws 2).2), Layer.shuffle 2] ∧
      ∃ y, (UpsampleBlock.init n 8 none ws).forward x = some y ∧
        y.N = x.N ∧ y.C = x.C ∧ y.H = 8 * x.H ∧ y.W = 8 * x.W) ∧
    ((UpsampleBlock.init n 3 none ws).body =
        [Layer.conv (conv3x3b n (9 * n) (ws 0).1 (ws 0).2), Layer.shuffle 3] ∧
      ∃ y, (UpsampleBlock.init n 3 none ws).forward x = some y ∧
        y.N = x.N ∧ y.C = x.C ∧ y.H = 3 * x.H ∧ y.W = 3 * x.W) := by
  have hb2 : (UpsampleBlock.init n 2 none ws).body =
      [Layer.conv (conv3x3b n (4 * n) (ws 0).1 (ws 0).2), Layer.shuffle 2] := by
    norm_num [UpsampleBlock.init, pyIntLog2, Nat.log2,
      (by decide : List.range 1 = [0])]
  have hb4 : (UpsampleBlock.init n 4 none ws).body =
      [Layer.conv (conv3x3b n (4 * n) (ws 0).1 (ws 0).2), Layer.shuffle 2,
       Layer.conv (conv3x3b n (4 * n) (ws 1).1 (ws 1).2), Layer.shuffle 2] := by
    norm_num [UpsampleBlock.init, pyIntLog2, Nat.log2,
      (by decide : List.range 2 = [0, 1]), (by decide : List.range 3 = [0, 1, 2])]
  have hb8 : (UpsampleBlock.init n 8 none ws).body =
      [Layer.conv (conv3x3b n (4 * n) (ws 0).1 (ws 0).2), Layer.shuffle 2,
       Layer.conv (conv3x3b n (4 * n) (ws 1).1 (ws 1).2), Layer.shuffle 2,
       Layer.conv (conv3x3b n (4 * n) (ws 2).1 (ws 2).2), Layer.shuffle 2] := by
    norm_num [UpsampleBlock.init, pyIntLog2, Nat.log2,
      (by decide : List.range 2 = [0, 1]), (by decide : List.range 3 = [0, 1, 2])]
  have hb3 : (UpsampleBlock.init n 3 none ws).body =
      [Layer.conv (conv3x3b n (9 * n) (ws 0).1 (ws 0).2), Layer.shuffle 3] := by
    norm_num [UpsampleBlock.init]
  refine ⟨⟨hb2, ?_⟩, ⟨hb4, ?_⟩, ⟨hb8, ?_⟩, ⟨hb3, ?_⟩⟩
  · obtain ⟨t, hrun, tN, tC, tH, tW⟩ := upsample_stage2 n (ws 0).1 (ws 0).2 [] x hC hH hW
    refine ⟨t, ?_, tN, by rw [tC, hC], by omega, by omega⟩
    rw [UpsampleBlock.forward, hb2, hrun]
    rfl
  · obtain ⟨t1, hrun1, t1N, t1C, t1H, t1W⟩ := upsample_stage2 n (ws 0).1 (ws 0).2
      [Layer.conv (conv3x3b n (4 * n) (ws 1).1 (ws 1).2), Layer.shuffle 2] x hC hH hW
    obtain ⟨t2, hrun2, t2N, t2C, t2H, t2W⟩ := upsample_stage2 n (ws 1).1 (ws 1).2
      [] t1 t1C (by omega) (by omega)
    refine ⟨t2, ?_, by rw [t2N, t1N], by rw [t2C, hC], by omega, by omega⟩
    rw [UpsampleBlock.forward, hb4, hrun1, hrun2]
    rfl
  · obtain ⟨t1, hrun1, t1N, t1C, t1H, t1W⟩ := upsample_stage2 n (ws 0).1 (ws 0).2
      [Layer.conv (conv3x3b n (4 * n) (ws 1).1 (ws 1).2), Layer.shuffle 2,
       Layer.conv (conv3x3b n (4 * n) (ws 2).1 (ws 2).2), Layer.shuffle 2] x hC hH hW
    obtain ⟨t2, hrun2, t2N, t2C, t2H, t2W⟩ := upsample_stage2 n (ws 1).1 (ws 1).2
      [Layer.conv (conv3x3b n (4 * n) (ws 2).1 (ws 2).2), Layer.shuffle 2] t1 t1C
      (by omega) (by omega)
    obtain ⟨t3, hrun3, t3N, t3C, t3H, t3W⟩ := upsample_stage2 n (ws 2).1 (ws 2).2
      [] t2 t2C (by omega) (by omega)
    refine ⟨t3, ?_, by rw [t3N, t2N, t1N], by rw [t3C, hC], by omega, by omega⟩
    rw [UpsampleBlock.forward, hb8, hrun1, hrun2, hrun3]
    rfl
  · obtain ⟨t, hrun, tN, tC, tH, tW⟩ := upsample_stage3 n (ws 0).1 (ws 0).2 [] x hC hH hW
    refine ⟨t, ?_, tN, by rw [tC, hC], by omega, by omega⟩
    rw [UpsampleBlock.forward, hb3, hrun]
    rfl

/-- C2 witness: the scale-2 case applied to a concrete 1-channel input. -/
theorem upsampleBlock_structure_and_scaling_witness :
    (onesT 1).C = 1 ∧ 1 ≤ (onesT 1).H ∧ 1 ≤ (onesT 1).W ∧
    ((UpsampleBlock.init 1 2 none (fun _ => (zeroW, zeroB))).body =
        [Layer.conv (conv3x3b 1 (4 * 1) zeroW zeroB), Layer.shuffle 2] ∧
      ∃ y, (UpsampleBlock.init 1 2 none (fun _ => (zeroW, zeroB))).forward (onesT 1)
          = some y ∧
        y.N = (onesT 1).N ∧ y.C = (onesT 1).C ∧
        y.H = 2 * (onesT 1).H ∧ y.W = 2 * (onesT 1).W) :=
  ⟨rfl, by decide, by decide,
    (upsampleBlock_structure_and_scaling 1 (fun _ => (zeroW, zeroB)) (onesT 1)
      rfl (by decide) (by decide)).1⟩

end CARN




